import Mathlib

/-!
Verification development for the batched 3D rendering core of the
amethyst engine's renderer (`amethyst_rendy/src/pass/base_3d.rs` and
`amethyst_rendy/src/pass/pbm.rs`).

Entity ids, mesh ids, material handles and resolved material ids are
modelled as `Nat`.  Opaque GPU payload values (transforms, tints, joint
data, light payloads) are likewise modelled as `Nat`; the passes never
inspect them, they only move them around.
-/

namespace Amethyst

/-- Result of a render group's prepare call (rendy `PrepareResult`). -/
inductive PrepareResult where
  | drawRecord
  | drawReuse
deriving DecidableEq

/-- Per-instance record built by `VertexArgs::from_object_data(tform, tint)`.
Modelled from the spec: `pod.rs` is not under `src/`; the record is "transform
+ tint", produced fresh each frame from entity state. -/
structure VertexArgs where
  transform : Nat
  tint : Option Nat
deriving DecidableEq

/-- Per-instance record built by
`SkinnedVertexArgs::from_object_data(tform, tint, offset)`.
Modelled from the spec: `pod.rs` is not under `src/`; the record is "transform
+ tint, plus a joint-offset index for skinned variant". -/
structure SkinnedVertexArgs where
  transform : Nat
  tint : Option Nat
  jointsOffset : Nat
deriving DecidableEq

/-- The `Visibility` resource: an unordered visible set plus an ordered
back-to-front entity sequence (`visibility.rs` is not under `src/`; the
fields and their roles are those named by the spec and used by the passes). -/
structure Visibility where
  visible_unordered : Nat → Bool
  visible_ordered : List Nat

/-- Component storages and collaborator state read by `prepare`, per frame.
`material`/`mesh`/`transform`/`tint`/`joints` model the component storages
(`None` = entity lacks the component), the `hidden`/`hiddenPropagate`/
`transparent` flags model the marker components, `meshLoaded` models
`AssetStorage::contains_id`, and `matResolve` models
`MaterialSub::insert` returning `Some (resolved_id, changed)` or `None`
when the material's textures are not ready (spec section 6). -/
structure World where
  alive : List Nat
  material : Nat → Option Nat
  mesh : Nat → Option Nat
  transform : Nat → Option Nat
  tint : Nat → Option Nat
  joints : Nat → Option Nat
  hidden : Nat → Bool
  hiddenPropagate : Nat → Bool
  transparent : Nat → Bool
  meshLoaded : Nat → Bool
  matResolve : Nat → Option (Nat × Bool)

/-! ## Batch containers

`TwoLevelBatch` and `OrderedTwoLevelBatch` live in `crate::batch`, which is
not under `src/`; both are modelled from the spec (section 4.1). -/

/-- Modelled from the spec: the unordered two-level batch container
(`crate::batch::TwoLevelBatch`, not under `src/`): a mapping
MaterialId → (MeshId → sequence of per-instance records), with buckets
created as needed and a given mesh's instances forming one contiguous run. -/
abbrev TwoLevelBatch (α : Type) : Type := List (Nat × List (Nat × List α))

namespace TwoLevelBatch

/-- Modelled from the spec: append `d` to the inner bucket for `mesh`,
creating it at the end if absent. -/
def insert_inner (bs : List (Nat × List α)) (mesh : Nat) (d : List α) :
    List (Nat × List α) :=
  match bs with
  | [] => [(mesh, d)]
  | (k, xs) :: r =>
    if k = mesh then (k, xs ++ d) :: r else (k, xs) :: insert_inner r mesh d

/-- Modelled from the spec: `insert(material_key, mesh_key, instance_iterator)`
appends instance records to the bucket for that (material, mesh) pair,
creating buckets as needed. -/
def insert (c : TwoLevelBatch α) (mat mesh : Nat) (d : List α) :
    TwoLevelBatch α :=
  match c with
  | [] => [(mat, [(mesh, d)])]
  | (m, bs) :: rest =>
    if m = mat then (m, insert_inner bs mesh d) :: rest
    else (m, bs) :: insert rest mat mesh d

/-- Modelled from the spec: `clear_inner` empties per-mesh instance lists
while retaining bucket structure across frames. -/
def clear_inner (c : TwoLevelBatch α) : TwoLevelBatch α :=
  c.map (fun b => (b.1, []))

/-- Modelled from the spec: `prune` removes buckets left empty after a frame
with no entities. -/
def prune (c : TwoLevelBatch α) : TwoLevelBatch α :=
  c.filter (fun b => !b.2.isEmpty)

/-- Flattened instance sequence of one material bucket. -/
def bucketData (bs : List (Nat × List α)) : List α :=
  (bs.map Prod.snd).flatten

/-- Modelled from the spec: `data()` yields the flattened, bucket-ordered
instance sequence. -/
def data (c : TwoLevelBatch α) : List α :=
  (c.map (fun b => bucketData b.2)).flatten

/-- Modelled from the spec: `count()` returns total instance count across all
buckets. -/
def count (c : TwoLevelBatch α) : Nat :=
  (data c).length

/-- Bool-valued predicate: every inner mesh key of the container satisfies
`f`. -/
def allMeshes (f : Nat → Bool) (c : TwoLevelBatch α) : Bool :=
  c.all (fun b => b.2.all (fun x => f x.1))

end TwoLevelBatch

/-- Modelled from the spec: the ordered two-level batch container
(`crate::batch::OrderedTwoLevelBatch`, not under `src/`): all insertions
during a frame occur in the externally supplied order and the container
preserves that relative order within and across buckets; `swap_clear`
retains the previous frame's committed shape for comparison and `changed()`
reports any structural difference (materials, meshes, per-bucket instance
counts) from the prior frame.  `runs` is the current frame's sequence of
(material, mesh, instances) runs in insertion order; `old_keys` is the
previous frame's shape. -/
structure OrderedTwoLevelBatch (α : Type) where
  old_keys : List (Nat × Nat × Nat)
  runs : List (Nat × Nat × List α)

namespace OrderedTwoLevelBatch

/-- Append a run at the end, merging with the last run when it has the same
(material, mesh) key, so a given mesh's instances form one contiguous run. -/
def pushRun (rs : List (Nat × Nat × List α)) (mat mesh : Nat) (d : List α) :
    List (Nat × Nat × List α) :=
  match rs with
  | [] => [(mat, mesh, d)]
  | [r] =>
    if r.1 = mat ∧ r.2.1 = mesh then [(r.1, r.2.1, r.2.2 ++ d)]
    else [r, (mat, mesh, d)]
  | r :: rest => r :: pushRun rest mat mesh d

/-- Modelled from the spec: ordered insert, preserving the external order. -/
def insert (c : OrderedTwoLevelBatch α) (mat mesh : Nat) (d : List α) :
    OrderedTwoLevelBatch α :=
  { c with runs := pushRun c.runs mat mesh d }

/-- The shape (materials, meshes, per-bucket instance counts) of a run list. -/
def shapesOf (rs : List (Nat × Nat × List α)) : List (Nat × Nat × Nat) :=
  rs.map (fun r => (r.1, r.2.1, r.2.2.length))

/-- Modelled from the spec: start the new frame's data afresh while retaining
the previous frame's committed shape for comparison. -/
def swap_clear (c : OrderedTwoLevelBatch α) : OrderedTwoLevelBatch α :=
  ⟨shapesOf c.runs, []⟩

/-- Modelled from the spec: flattened instance sequence in insertion order. -/
def data (c : OrderedTwoLevelBatch α) : List α :=
  (c.runs.map (fun r => r.2.2)).flatten

/-- Total instance count. -/
def count (c : OrderedTwoLevelBatch α) : Nat :=
  (data c).length

/-- Modelled from the spec: `changed()` fires on any structural difference
between the new batch shape and the prior frame's shape. -/
def changed (c : OrderedTwoLevelBatch α) : Bool :=
  !(decide (shapesOf c.runs = c.old_keys))

/-- Bool-valued predicate: every run's mesh key satisfies `f`. -/
def allMeshes (f : Nat → Bool) (c : OrderedTwoLevelBatch α) : Bool :=
  c.runs.all (fun r => f r.2.1)

end OrderedTwoLevelBatch

/-! ## Grouping (`GroupIterator::for_each_group`) -/

/-- Modelled from the spec: `crate::batch::GroupIterator::for_each_group`
(not under `src/`) groups maximal consecutive runs of items sharing a key and
hands each run to the insertion closure, so that a given mesh's instances
form one contiguous run. -/
def group_runs {K α : Type} [DecidableEq K] : List (K × α) → List (K × List α)
  | [] => []
  | (k, a) :: rest =>
    match group_runs rest with
    | [] => [(k, [a])]
    | (k', as') :: gs =>
      if k = k' then (k, a :: as') :: gs else (k, [a]) :: (k', as') :: gs

/-- The instance data of the runs whose key passes the guard `p`, in run
order. -/
def runsData {K α : Type} (p : K → Bool) (gs : List (K × List α)) : List α :=
  (gs.filterMap (fun g => if p g.1 then some g.2 else none)).flatten

/-! ## Visible-entity gathering -/

/-- The item produced for an entity by the static join
`((&materials, &meshes, &transforms, tints.maybe()), !&joints)` followed by
`map`: the batch key `(material handle, mesh id)` together with
`VertexArgs::from_object_data(tform, tint)` (`base_3d.rs` lines 207, 217-219,
558-560). `none` when the entity lacks a required component or has joint
transforms. -/
def staticItem (w : World) (i : Nat) : Option ((Nat × Nat) × VertexArgs) :=
  match w.material i, w.mesh i, w.transform i, w.joints i with
  | some mat, some mesh, some tf, none => some ((mat, mesh), ⟨tf, w.tint i⟩)
  | _, _, _, _ => none

/-- The pre-skinning item produced for an entity by the skinned join
`(&materials, &meshes, &transforms, tints.maybe(), &joints)`
(`base_3d.rs` line 209): the batch key and the (transform, tint) pair; the
joint offset is assigned afterwards by `SkinningSub::insert`. -/
def skinnedItem (w : World) (i : Nat) : Option ((Nat × Nat) × (Nat × Option Nat)) :=
  match w.material i, w.mesh i, w.transform i, w.joints i with
  | some mat, some mesh, some tf, some _ => some ((mat, mesh), (tf, w.tint i))
  | _, _, _, _ => none

/-- Assign joint-buffer offsets in insertion order.  Modelled from the spec:
`SkinningSub::insert` (not under `src/`) assigns each skinned entity a stable
offset into the joint buffer for the current frame via an explicit insert
call; successive calls receive successive offsets. -/
def withOffsets (l : List ((Nat × Nat) × (Nat × Option Nat))) :
    List ((Nat × Nat) × SkinnedVertexArgs) :=
  l.enum.map (fun p => (p.2.1, ⟨p.2.2.1, p.2.2.2, p.1⟩))

/-- The guard applied by the insertion closure before a run is inserted:
the mesh asset is loaded (`mesh_storage.contains_id`) and
`MaterialSub::insert` resolved the material (`base_3d.rs` lines 220-225,
561-568). -/
def survives (w : World) (k : Nat × Nat) : Bool :=
  w.meshLoaded k.2 && (w.matResolve k.1).isSome

/-- Whether a run with key `k` is successfully inserted and its material
reported changed (newly registered or modified this frame). -/
def materialChangedFlag (w : World) (k : Nat × Nat) : Bool :=
  w.meshLoaded k.2 && ((w.matResolve k.1).map Prod.snd).getD false

/-- Fold the grouped runs into an unordered container, mirroring the
`for_each_group` closure of the opaque pass (`base_3d.rs` lines 220-226):
insert only when the mesh is loaded and the material resolves. -/
def insertRunsT {α : Type} (w : World) (runs : List ((Nat × Nat) × List α))
    (c : TwoLevelBatch α) : TwoLevelBatch α :=
  runs.foldl (fun c r =>
    if w.meshLoaded r.1.2 then
      match w.matResolve r.1.1 with
      | some (m, _) => c.insert m r.1.2 r.2
      | none => c
    else c) c

/-- Fold the grouped runs into an ordered container, mirroring the
`for_each_group` closure of the transparent pass (`base_3d.rs` lines
561-569): insert only when the mesh is loaded and the material resolves,
and accumulate the material-changed flag. -/
def insertRunsO {α : Type} (w : World) (runs : List ((Nat × Nat) × List α))
    (c : OrderedTwoLevelBatch α) (ch : Bool) :
    OrderedTwoLevelBatch α × Bool :=
  runs.foldl (fun acc r =>
    if w.meshLoaded r.1.2 then
      match w.matResolve r.1.1 with
      | some (m, ch') => (acc.1.insert m r.1.2 r.2, acc.2 || ch')
      | none => acc
    else acc) (c, ch)

/-- The opaque pass's static gather stream (`base_3d.rs` lines 211-268):
without a `Visibility` resource, all alive entities not flagged `Hidden`,
`HiddenPropagate` or `Transparent`; with one, the entities of its unordered
visible set. -/
def opaqueStaticStream (w : World) (vis : Option Visibility) :
    List ((Nat × Nat) × VertexArgs) :=
  match vis with
  | none =>
    w.alive.filterMap (fun i =>
      if w.hidden i || w.hiddenPropagate i || w.transparent i then none
      else staticItem w i)
  | some v =>
    w.alive.filterMap (fun i =>
      if v.visible_unordered i then staticItem w i else none)

/-- The opaque pass's skinned gather stream (`base_3d.rs` lines 228-252,
270-294): without a `Visibility` resource, all alive entities not flagged
`Hidden` or `HiddenPropagate` (the skinned join does not exclude
`Transparent`); with one, the entities of its unordered visible set. -/
def opaqueSkinnedStream (w : World) (vis : Option Visibility) :
    List ((Nat × Nat) × SkinnedVertexArgs) :=
  withOffsets (match vis with
  | none =>
    w.alive.filterMap (fun i =>
      if w.hidden i || w.hiddenPropagate i then none else skinnedItem w i)
  | some v =>
    w.alive.filterMap (fun i =>
      if v.visible_unordered i then skinnedItem w i else none))

/-- `DrawBase3D::prepare` (`base_3d.rs` lines 161-320), restricted to its
batch-container effect: clear the per-mesh instance lists, gather both
streams (the skinned one only when the pass holds a skinned pipeline),
group them, insert the surviving runs, and prune empty buckets.  Returns
the two containers (static, skinned). -/
def opaquePrepare (skin : Bool) (vis : Option Visibility)
    (prevS : TwoLevelBatch VertexArgs) (prevK : TwoLevelBatch SkinnedVertexArgs)
    (w : World) : TwoLevelBatch VertexArgs × TwoLevelBatch SkinnedVertexArgs :=
  let s0 := prevS.clear_inner
  let k0 := prevK.clear_inner
  let s1 := insertRunsT w (group_runs (opaqueStaticStream w vis)) s0
  let k1 :=
    if skin then insertRunsT w (group_runs (opaqueSkinnedStream w vis)) k0
    else k0
  (s1.prune, k1.prune)

/-- The transparent pass's static gather stream (`base_3d.rs` lines 553-560):
the ordered back-to-front entity sequence, restricted to the entities
matched by the static join. -/
def transparentStaticStream (w : World) (vis : Visibility) :
    List ((Nat × Nat) × VertexArgs) :=
  vis.visible_ordered.filterMap (staticItem w)

/-- The transparent pass's skinned gather stream (`base_3d.rs` lines
571-587): the ordered back-to-front entity sequence restricted to the
skinned join, with joint offsets assigned in that order. -/
def transparentSkinnedStream (w : World) (vis : Visibility) :
    List ((Nat × Nat) × SkinnedVertexArgs) :=
  withOffsets (vis.visible_ordered.filterMap (skinnedItem w))

/-- Output of the transparent pass's prepare: the two ordered containers,
the computed `changed` boolean, and the returned prepare result. -/
structure TransparentOut where
  staticC : OrderedTwoLevelBatch VertexArgs
  skinnedC : OrderedTwoLevelBatch SkinnedVertexArgs
  changed : Bool
  result : PrepareResult

/-- `DrawBase3DTransparent::prepare` (`base_3d.rs` lines 521-620), restricted
to its batch-container and change-detection effect.  `helper` models
`util::ChangeDetection::prepare_result` (not under `src/`); modelled from
the spec, the final result status is derived by a change-detection helper
keyed on the frame slot index and the `changed` boolean. -/
def transparentPrepare (skin : Bool)
    (prevS : OrderedTwoLevelBatch VertexArgs)
    (prevK : OrderedTwoLevelBatch SkinnedVertexArgs)
    (vis : Visibility) (w : World)
    (helper : Nat → Bool → PrepareResult) (index : Nat) : TransparentOut :=
  let s0 := prevS.swap_clear
  let k0 := prevK.swap_clear
  let sr := insertRunsO w (group_runs (transparentStaticStream w vis)) s0 false
  let kr :=
    if skin then
      insertRunsO w (group_runs (transparentSkinnedStream w vis)) k0 sr.2
    else (k0, sr.2)
  let ch := kr.2 || sr.1.changed || kr.1.changed
  ⟨sr.1, kr.1, ch, helper index ch⟩

/-- The transparent pass's resource fetch (`base_3d.rs` lines 529-538):
`ReadExpect<Visibility>` fails when the resource is absent (the `shred`
fetch panics), modelled as an `Except`. -/
def transparentPrepareFetch (skin : Bool)
    (prevS : OrderedTwoLevelBatch VertexArgs)
    (prevK : OrderedTwoLevelBatch SkinnedVertexArgs)
    (vis : Option Visibility) (w : World)
    (helper : Nat → Bool → PrepareResult) (index : Nat) :
    Except String TransparentOut :=
  match vis with
  | none => .error "Tried to fetch a resource of type Visibility, but the resource does not exist"
  | some v => .ok (transparentPrepare skin prevS prevK v w helper index)

/-! ## Draw execution (opaque pass) -/

/-- One instanced draw call recorded during `draw_inline`: the mesh drawn and
the contiguous instance range `start..start+count` it covers. -/
structure DrawCall where
  mesh : Nat
  start : Nat
  count : Nat
deriving DecidableEq

/-- The inner loop of `DrawBase3D::draw_inline` over one material's batches
(`base_3d.rs` lines 344-358): issue a draw for each batch whose mesh
resolves (`B::unwrap_mesh` returns `Some`), and advance the running
`instances_drawn` counter by the batch's length whether or not the mesh
resolved. -/
def drawBucket {α : Type} (meshOk : Nat → Bool) (acc : List DrawCall × Nat)
    (bs : List (Nat × List α)) : List DrawCall × Nat :=
  bs.foldl (fun a b =>
    (a.1 ++ (if meshOk b.1 then [⟨b.1, a.2, b.2.length⟩] else []),
     a.2 + b.2.length)) acc

/-- The static-pipeline draw loop of `DrawBase3D::draw_inline` (`base_3d.rs`
lines 338-361): if the dynamic buffer bind reports no data, skip entirely;
otherwise iterate material buckets in container order, skipping (without
advancing the counter) every material the material submodule reports not
yet loaded.  `loaded` models `MaterialSub::loaded`, `meshOk` models
`B::unwrap_mesh` succeeding. -/
def draw_inline_static {α : Type} (loaded : Nat → Bool) (meshOk : Nat → Bool)
    (c : TwoLevelBatch α) : List DrawCall × Nat :=
  if c.count = 0 then ([], 0)
  else c.foldl (fun a b => if loaded b.1 then drawBucket meshOk a b.2 else a)
    ([], 0)

/-- The (mesh, instances) batches of the loaded materials, flattened in
container iteration order. -/
def loadedBatches {α : Type} (loaded : Nat → Bool) (c : TwoLevelBatch α) :
    List (Nat × List α) :=
  ((c.filter (fun b => loaded b.1)).map Prod.snd).flatten

/-- All (mesh, instances) batches of the container, flattened in container
iteration order. -/
def allBatches {α : Type} (c : TwoLevelBatch α) : List (Nat × List α) :=
  (c.map Prod.snd).flatten

/-- Specification-side description of the draw loop (spec section 4.5):
process a flattened batch sequence with a running instance offset, emitting
for each batch whose mesh resolves an instanced draw covering that batch's
contiguous range, and advancing the offset by every batch's length. -/
def callsSpec {α : Type} (meshOk : Nat → Bool) :
    Nat → List (Nat × List α) → List DrawCall
  | _, [] => []
  | off, b :: rest =>
    (if meshOk b.1 then [⟨b.1, off, b.2.length⟩] else [])
      ++ callsSpec meshOk (off + b.2.length) rest

/-! ## Pipeline construction (`build_pipelines`, `base_3d.rs` lines 699-800) -/

/-- A graphics-factory effect performed by `build_pipelines`.  Shader module
indices: 0 = basic vertex, 1 = fragment, 2 = skinned vertex. -/
inductive PipeEvent where
  | createLayout
  | createShaderModule (which : Nat)
  | destroyShaderModule (which : Nat)
  | buildGraphicsPipelines
  | destroyLayout
deriving DecidableEq

/-- `build_pipelines` (`base_3d.rs` lines 699-800) as an effect trace.
`layoutRes` models `create_pipeline_layout` (propagated with `?` on
failure), `buildRes` models `PipelinesBuilder::build`; pipelines are
modelled as `Nat`.  Returns the ordered list of factory effects together
with the function's result. -/
def build_pipelines (skinning : Bool) (layoutRes : Except Unit Unit)
    (buildRes : Except Unit (List Nat)) :
    List PipeEvent × Except Unit (List Nat × Unit) :=
  match layoutRes with
  | .error e => ([], .error e)
  | .ok _ =>
    let evs :=
      [PipeEvent.createLayout, PipeEvent.createShaderModule 0,
       PipeEvent.createShaderModule 1]
      ++ (if skinning then
            [PipeEvent.createShaderModule 2, PipeEvent.buildGraphicsPipelines,
             PipeEvent.destroyShaderModule 2]
          else [PipeEvent.buildGraphicsPipelines])
      ++ [PipeEvent.destroyShaderModule 0, PipeEvent.destroyShaderModule 1]
    match buildRes with
    | .error e => (evs ++ [PipeEvent.destroyLayout], .error e)
    | .ok ps => (evs, .ok (ps, ()))

/-! ## PBM pass (`pbm.rs`) -/

/-- One batch of the PBM pass: a mesh id and its per-instance transforms
(`pbm.rs` lines 296-300; transforms modelled as `Nat`). -/
structure InstancedBatchData where
  mesh_id : Nat
  models : List Nat
deriving DecidableEq

/-- A material's bucket: its batch list (`pbm.rs` lines 289-294; the
descriptor sets are irrelevant to batching and omitted). -/
structure MaterialData where
  batches : List InstancedBatchData
deriving DecidableEq

/-- The bounded scan of `DrawPbm::insert_batch` (`pbm.rs` lines 241-253):
look for a batch with the given mesh id among the first `fuel` batches
(`iter_mut().take(8).find`); on a hit, extend that batch's models in place
and return the updated list, else report no hit. -/
def scanExtend (fuel : Nat) (bs : List InstancedBatchData) (mesh : Nat)
    (ins : List Nat) : Option (List InstancedBatchData) :=
  match fuel, bs with
  | 0, _ => none
  | _, [] => none
  | f + 1, b :: r =>
    if b.mesh_id = mesh then some ({ b with models := b.models ++ ins } :: r)
    else (scanExtend f r mesh ins).map (b :: ·)

/-- `DrawPbm::insert_batch` (`pbm.rs` lines 228-265): for an occupied
material entry, merge into a batch with the same mesh within the first 8
slots or push a new batch at the end; for a vacant entry, create a bucket
holding a single batch.  The map is modelled as a function from material id
to bucket. -/
def insert_batch (materials_data : Nat → Option MaterialData)
    (mat_id mesh_id : Nat) (instance_data : List Nat) :
    Nat → Option MaterialData :=
  fun m =>
    if m = mat_id then
      some (match materials_data mat_id with
        | some mat =>
          match scanExtend 8 mat.batches mesh_id instance_data with
          | some bs' => ⟨bs'⟩
          | none => ⟨mat.batches ++ [⟨mesh_id, instance_data⟩]⟩
        | none => ⟨[⟨mesh_id, instance_data⟩]⟩)
    else materials_data m

/-- The batch list held for a material id: the bucket's batches when the
material is present in the map, the empty list otherwise. -/
def bucketBatches (o : Option MaterialData) : List InstancedBatchData :=
  match o with
  | some m => m.batches
  | none => []

/-- `u64::next_power_of_two` with release-mode wrapping semantics: the
smallest power of two greater than or equal to the argument, reduced mod
2^64 — so arguments above 2^63 wrap to 0 (in debug mode the source panics
there instead); 0 and 1 both map to 1. -/
def next_power_of_two (n : Nat) : Nat :=
  (if n ≤ 1 then 1 else 2 ^ (Nat.log2 (n - 1) + 1)) % 2 ^ 64

/-- `ensure_buffer` (`pbm.rs` lines 888-902): the buffer is modelled by its
size (`none` = no buffer yet); buffer creation by the factory is modelled
as succeeding.  Returns `Ok (reallocated, new buffer)`. -/
def ensure_buffer (buffer : Option Nat) (min_size : Nat) :
    Except Unit (Bool × Option Nat) :=
  if buffer.getD 0 < min_size then
    .ok (true, some (next_power_of_two min_size))
  else
    .ok (false, buffer)

/-- A light component (`Light::Point` / `Directional` / `Spot`); the light's
parameters are modelled as an opaque `Nat` payload. -/
inductive Light where
  | point (x : Nat)
  | directional (x : Nat)
  | spot (x : Nat)
deriving DecidableEq

/-- The light-related ECS state read by `DrawPbm::prepare`: per entity, an
optional `Light` component and an optional `GlobalTransform` (modelled as
`Nat`). -/
structure LightWorld where
  alive : List Nat
  lightOf : Nat → Option Light
  transformOf : Nat → Option Nat

def MAX_POINT_LIGHTS : Nat := 128
def MAX_DIR_LIGHTS : Nat := 16
def MAX_SPOT_LIGHTS : Nat := 128

/-- The uploaded point-light pod (`pbm.rs` lines 493-499): position from the
transform, plus the light payload. -/
structure PointLightPod where
  position : Nat
  light : Nat
deriving DecidableEq

/-- The uploaded directional-light pod (`pbm.rs` lines 512-517): the light
payload only (no transform is joined). -/
structure DirectionalLightPod where
  light : Nat
deriving DecidableEq

/-- The uploaded spot-light pod (`pbm.rs` lines 530-539). -/
structure SpotLightPod where
  position : Nat
  light : Nat
deriving DecidableEq

/-- The point lights collected by `DrawPbm::prepare` (`pbm.rs` lines
489-506): join lights with global transforms, keep the `Point` ones, and
truncate to `MAX_POINT_LIGHTS`. -/
def point_lights (w : LightWorld) : List PointLightPod :=
  ((w.alive.filterMap (fun e =>
      match w.lightOf e, w.transformOf e with
      | some l, some t => some (l, t)
      | _, _ => none)).filterMap (fun lt =>
      match lt.1 with
      | Light.point x => some (⟨lt.2, x⟩ : PointLightPod)
      | _ => none)).take MAX_POINT_LIGHTS

/-- The directional lights collected by `DrawPbm::prepare` (`pbm.rs` lines
508-524): join over the light storage alone, keep the `Directional` ones,
truncate to `MAX_DIR_LIGHTS`. -/
def dir_lights (w : LightWorld) : List DirectionalLightPod :=
  ((w.alive.filterMap w.lightOf).filterMap (fun l =>
      match l with
      | Light.directional x => some (⟨x⟩ : DirectionalLightPod)
      | _ => none)).take MAX_DIR_LIGHTS

/-- The spot lights collected by `DrawPbm::prepare` (`pbm.rs` lines
526-547): join lights with global transforms, keep the `Spot` ones,
truncate to `MAX_SPOT_LIGHTS`. -/
def spot_lights (w : LightWorld) : List SpotLightPod :=
  ((w.alive.filterMap (fun e =>
      match w.lightOf e, w.transformOf e with
      | some l, some t => some (l, t)
      | _, _ => none)).filterMap (fun lt =>
      match lt.1 with
      | Light.spot x => some (⟨lt.2, x⟩ : SpotLightPod)
      | _ => none)).take MAX_SPOT_LIGHTS

/-- The light counts written into the `Environment` uniform (`pbm.rs` lines
549-556): the lengths of the truncated light lists. -/
structure EnvironmentPod where
  point_light_count : Nat
  directional_light_count : Nat
  spot_light_count : Nat
deriving DecidableEq

/-- The `Environment` pod built by `DrawPbm::prepare` (`pbm.rs` lines
549-556). -/
def environment_pod (w : LightWorld) : EnvironmentPod :=
  ⟨(point_lights w).length, (dir_lights w).length, (spot_lights w).length⟩

/-! ## Concrete instances used by counterexamples and witnesses -/

/-- A world with a single alive entity (id 0) that has a material, a loaded
mesh, a transform and joint transforms, is flagged `Transparent`, and is not
hidden; its material resolves. -/
def transparentJointedWorld : World where
  alive := [0]
  material := fun _ => some 0
  mesh := fun _ => some 0
  transform := fun _ => some 7
  tint := fun _ => none
  joints := fun _ => some 0
  hidden := fun _ => false
  hiddenPropagate := fun _ => false
  transparent := fun _ => true
  meshLoaded := fun _ => true
  matResolve := fun _ => some (0, false)

/-- A container with two materials in iteration order: material 3 holding one
batch of 2 instances of mesh 5, then material 4 holding one batch of 1
instance of mesh 7. -/
def twoMaterialContainer : TwoLevelBatch Nat :=
  [(3, [(5, [10, 11])]), (4, [(7, [12])])]

/-- The spec's two-material example: materials 0 and 1, each with two mesh
batches of instance counts (3, 5) and (2, 7); 17 instances in total. -/
def seventeenContainer : TwoLevelBatch Nat :=
  [(0, [(0, [1, 2, 3]), (1, [4, 5, 6, 7, 8])]),
   (1, [(2, [9, 10]), (3, [11, 12, 13, 14, 15, 16, 17])])]

/-- A PBM material map holding material 1 with two batches: mesh 4 with one
instance and mesh 5 with two instances. -/
def pbmMapExample : Nat → Option MaterialData :=
  fun m => if m = 1 then some ⟨[⟨4, [0]⟩, ⟨5, [1, 2]⟩]⟩ else none

/-! ## Helper lemmas -/

theorem group_runs_eq_nil {K α : Type} [DecidableEq K] {l : List (K × α)}
    (h : group_runs l = []) : l = [] := by
  cases l with
  | nil => rfl
  | cons x rest =>
    obtain ⟨k, a⟩ := x
    unfold group_runs at h
    rcases hg : group_runs rest with _ | ⟨⟨k', as'⟩, gs⟩ <;> rw [hg] at h
    · simp at h
    · by_cases hk : k = k' <;> simp [hk] at h

theorem runsData_cons {K α : Type} (p : K → Bool) (k : K) (d : List α)
    (gs : List (K × List α)) :
    runsData p ((k, d) :: gs) = (if p k then d else []) ++ runsData p gs := by
  by_cases hp : p k <;> simp [runsData, hp]

theorem runsData_group_runs {K α : Type} [DecidableEq K] (p : K → Bool)
    (l : List (K × α)) :
    runsData p (group_runs l) = (l.filter (fun x => p x.1)).map Prod.snd := by
  induction l with
  | nil => rfl
  | cons x rest ih =>
    obtain ⟨k, a⟩ := x
    unfold group_runs
    rcases hg : group_runs rest with _ | ⟨⟨k', as'⟩, gs⟩
    · have hrest : rest = [] := group_runs_eq_nil hg
      subst hrest
      by_cases hp : p k <;> simp [runsData, hp]
    · rw [hg] at ih
      by_cases hk : k = k'
      · subst hk
        rw [runsData_cons] at ih
        by_cases hp : p k <;>
          simp [runsData_cons, hp, List.filter_cons, ← ih]
      · by_cases hp : p k <;>
          simp [hk, runsData_cons, hp, List.filter_cons, ih]

theorem group_runs_any {K α : Type} [DecidableEq K] (q : K → Bool)
    (l : List (K × α)) :
    (group_runs l).any (fun g => q g.1) = l.any (fun x => q x.1) := by
  induction l with
  | nil => rfl
  | cons x rest ih =>
    obtain ⟨k, a⟩ := x
    unfold group_runs
    rcases hg : group_runs rest with _ | ⟨⟨k', as'⟩, gs⟩
    · have hrest : rest = [] := group_runs_eq_nil hg
      subst hrest
      simp
    · rw [hg] at ih
      by_cases hk : k = k'
      · subst hk
        dsimp only
        rw [if_pos rfl]
        simp only [List.any_cons] at ih ⊢
        rw [← ih]
        cases q k <;> rfl
      · dsimp only
        rw [if_neg hk]
        simp only [List.any_cons] at ih ⊢
        rw [← ih]

namespace OrderedTwoLevelBatch

theorem pushRun_data {α : Type} (rs : List (Nat × Nat × List α))
    (mat mesh : Nat) (d : List α) :
    ((pushRun rs mat mesh d).map (fun r => r.2.2)).flatten
      = (rs.map (fun r => r.2.2)).flatten ++ d := by
  induction rs with
  | nil => simp [pushRun]
  | cons r rest ih =>
    cases rest with
    | nil =>
      by_cases hc : r.1 = mat ∧ r.2.1 = mesh <;> simp [pushRun, hc]
    | cons r2 t =>
      simp only [pushRun, List.map_cons, List.flatten_cons, ih,
        List.append_assoc]

theorem insert_data {α : Type} (c : OrderedTwoLevelBatch α) (mat mesh : Nat)
    (d : List α) : (c.insert mat mesh d).data = c.data ++ d := by
  simp [insert, data, pushRun_data]

theorem swap_clear_data {α : Type} (c : OrderedTwoLevelBatch α) :
    c.swap_clear.data = [] := rfl

theorem pushRun_allMeshes {α : Type} (f : Nat → Bool)
    (rs : List (Nat × Nat × List α)) (mat mesh : Nat) (d : List α)
    (hrs : rs.all (fun r => f r.2.1) = true) (hm : f mesh = true) :
    (pushRun rs mat mesh d).all (fun r => f r.2.1) = true := by
  induction rs with
  | nil => simp [pushRun, hm]
  | cons r rest ih =>
    cases rest with
    | nil =>
      simp only [List.all_cons, List.all_nil, Bool.and_true] at hrs
      by_cases hc : r.1 = mat ∧ r.2.1 = mesh <;> simp [pushRun, hc, hrs, hm]
    | cons r2 t =>
      rw [List.all_cons, Bool.and_eq_true] at hrs
      show ((r :: pushRun (r2 :: t) mat mesh d).all fun r => f r.2.1) = true
      rw [List.all_cons, Bool.and_eq_true]
      exact ⟨hrs.1, ih hrs.2⟩

theorem insert_allMeshes_ordered {α : Type} (f : Nat → Bool)
    (c : OrderedTwoLevelBatch α) (mat mesh : Nat) (d : List α)
    (hc : c.allMeshes f = true) (hm : f mesh = true) :
    (c.insert mat mesh d).allMeshes f = true :=
  pushRun_allMeshes f c.runs mat mesh d hc hm

end OrderedTwoLevelBatch

theorem insertRunsO_spec {α : Type} (w : World)
    (runs : List ((Nat × Nat) × List α)) (c : OrderedTwoLevelBatch α)
    (ch : Bool) :
    ((insertRunsO w runs c ch).1).data = c.data ++ runsData (survives w) runs
    ∧ (insertRunsO w runs c ch).2
        = (ch || runs.any (fun g => materialChangedFlag w g.1)) := by
  induction runs generalizing c ch with
  | nil => simp [insertRunsO, runsData]
  | cons r rest ih =>
    rcases r with ⟨⟨math, mesh⟩, d⟩
    rcases hm : w.meshLoaded mesh with _ | _
    · have := ih c ch
      simp only [insertRunsO, List.foldl_cons, hm, Bool.false_eq_true,
        if_false] at this ⊢
      rw [this.1, this.2, runsData_cons]
      simp [survives, materialChangedFlag, hm]
    · rcases hr : w.matResolve math with _ | ⟨m, chf⟩
      · have := ih c ch
        simp only [insertRunsO, List.foldl_cons, hm, if_true, hr] at this ⊢
        rw [this.1, this.2, runsData_cons]
        simp [survives, materialChangedFlag, hm, hr]
      · have := ih (c.insert m mesh d) (ch || chf)
        simp only [insertRunsO, List.foldl_cons, hm, if_true, hr] at this ⊢
        rw [this.1, this.2, runsData_cons,
          OrderedTwoLevelBatch.insert_data]
        constructor
        · simp [survives, materialChangedFlag, hm, hr]
        · simp [survives, materialChangedFlag, hm, hr, Bool.or_assoc]

namespace TwoLevelBatch

theorem bucketData_insert_inner {α : Type} (bs : List (Nat × List α))
    (mesh : Nat) (d : List α) :
    List.Perm (bucketData (insert_inner bs mesh d)) (bucketData bs ++ d) := by
  induction bs with
  | nil => simp [insert_inner, bucketData]
  | cons b r ih =>
    obtain ⟨k, xs⟩ := b
    by_cases hk : k = mesh
    · simp only [insert_inner]
      rw [if_pos hk]
      simp only [bucketData, List.map_cons, List.flatten_cons]
      rw [List.append_assoc, List.append_assoc]
      exact List.Perm.append_left xs List.perm_append_comm
    · simp only [insert_inner]
      rw [if_neg hk]
      simp only [bucketData, List.map_cons, List.flatten_cons]
      rw [List.append_assoc]
      exact List.Perm.append_left xs ih

theorem insert_data_perm {α : Type} (c : TwoLevelBatch α) (mat mesh : Nat)
    (d : List α) :
    List.Perm (data (insert c mat mesh d)) (data c ++ d) := by
  induction c with
  | nil => simp [insert, data, bucketData]
  | cons b rest ih =>
    obtain ⟨m, bs⟩ := b
    by_cases hm : m = mat
    · simp only [insert]
      rw [if_pos hm]
      simp only [data, List.map_cons, List.flatten_cons]
      refine ((bucketData_insert_inner bs mesh d).append_right _).trans ?_
      rw [List.append_assoc, List.append_assoc]
      exact List.Perm.append_left _ List.perm_append_comm
    · simp only [insert]
      rw [if_neg hm]
      simp only [data, List.map_cons, List.flatten_cons]
      rw [List.append_assoc]
      exact List.Perm.append_left _ ih

theorem clear_inner_data {α : Type} (c : TwoLevelBatch α) :
    data (clear_inner c) = [] := by
  induction c with
  | nil => rfl
  | cons b rest ih =>
    simp only [clear_inner, List.map_cons, data, bucketData, List.map_nil,
      List.flatten_nil, List.flatten_cons, List.nil_append]
    simp only [clear_inner, data, bucketData] at ih
    exact ih

theorem prune_data {α : Type} (c : TwoLevelBatch α) :
    data (prune c) = data c := by
  induction c with
  | nil => rfl
  | cons b rest ih =>
    rcases he : b.2.isEmpty with _ | _
    · have hstep : prune (b :: rest) = b :: prune rest := by
        simp [prune, List.filter_cons, he]
      rw [hstep]
      show bucketData b.2 ++ data (prune rest) = bucketData b.2 ++ data rest
      rw [ih]
    · have hb : b.2 = [] := List.isEmpty_iff.mp he
      have hstep : prune (b :: rest) = prune rest := by
        simp [prune, List.filter_cons, he]
      rw [hstep, ih]
      show data rest = bucketData b.2 ++ data rest
      rw [hb]
      rfl

theorem clear_inner_allMeshes {α : Type} (f : Nat → Bool)
    (c : TwoLevelBatch α) : allMeshes f (clear_inner c) = true := by
  simp [allMeshes, clear_inner]

theorem prune_allMeshes {α : Type} (f : Nat → Bool) (c : TwoLevelBatch α)
    (h : allMeshes f c = true) : allMeshes f (prune c) = true := by
  simp only [allMeshes, List.all_eq_true] at h ⊢
  exact fun b hb => h b (List.mem_of_mem_filter hb)

theorem insert_inner_all {α : Type} (f : Nat → Bool)
    (bs : List (Nat × List α)) (mesh : Nat) (d : List α)
    (hbs : bs.all (fun x => f x.1) = true) (hm : f mesh = true) :
    (insert_inner bs mesh d).all (fun x => f x.1) = true := by
  induction bs with
  | nil => simpa [insert_inner] using hm
  | cons b r ih =>
    rw [List.all_cons, Bool.and_eq_true] at hbs
    obtain ⟨k, xs⟩ := b
    by_cases hk : k = mesh
    · simp only [insert_inner]
      rw [if_pos hk, List.all_cons, Bool.and_eq_true]
      exact ⟨hbs.1, hbs.2⟩
    · simp only [insert_inner]
      rw [if_neg hk, List.all_cons, Bool.and_eq_true]
      exact ⟨hbs.1, ih hbs.2⟩

theorem insert_allMeshes {α : Type} (f : Nat → Bool) (c : TwoLevelBatch α)
    (mat mesh : Nat) (d : List α) (hc : allMeshes f c = true)
    (hm : f mesh = true) : allMeshes f (insert c mat mesh d) = true := by
  induction c with
  | nil => simpa [insert, allMeshes] using hm
  | cons b rest ih =>
    rw [allMeshes, List.all_cons, Bool.and_eq_true] at hc
    obtain ⟨m, bs⟩ := b
    by_cases hmm : m = mat
    · simp only [insert]
      rw [if_pos hmm, allMeshes, List.all_cons, Bool.and_eq_true]
      exact ⟨insert_inner_all f bs mesh d hc.1 hm, hc.2⟩
    · simp only [insert]
      rw [if_neg hmm, allMeshes, List.all_cons, Bool.and_eq_true]
      exact ⟨hc.1, ih hc.2⟩

end TwoLevelBatch

theorem insertRunsT_data_perm {α : Type} (w : World)
    (runs : List ((Nat × Nat) × List α)) (c : TwoLevelBatch α) :
    List.Perm (TwoLevelBatch.data (insertRunsT w runs c))
      (TwoLevelBatch.data c ++ runsData (survives w) runs) := by
  induction runs generalizing c with
  | nil => simp [insertRunsT, runsData]
  | cons r rest ih =>
    rcases r with ⟨⟨math, mesh⟩, d⟩
    rcases hm : w.meshLoaded mesh with _ | _
    · have := ih c
      simp only [insertRunsT, List.foldl_cons, hm, Bool.false_eq_true,
        if_false] at this ⊢
      rw [runsData_cons]
      simpa [survives, hm] using this
    · rcases hr : w.matResolve math with _ | ⟨m, chf⟩
      · have := ih c
        simp only [insertRunsT, List.foldl_cons, hm, if_true, hr] at this ⊢
        rw [runsData_cons]
        simpa [survives, hm, hr] using this
      · have := ih (c.insert m mesh d)
        simp only [insertRunsT, List.foldl_cons, hm, if_true, hr] at this ⊢
        rw [runsData_cons]
        simp only [survives, hm, hr, Option.isSome_some, Bool.and_self,
          if_pos]
        refine this.trans ?_
        rw [← List.append_assoc]
        exact (TwoLevelBatch.insert_data_perm c m mesh d).append_right _

theorem insertRunsT_allMeshes {α : Type} (w : World)
    (runs : List ((Nat × Nat) × List α)) (c : TwoLevelBatch α)
    (hc : TwoLevelBatch.allMeshes w.meshLoaded c = true) :
    TwoLevelBatch.allMeshes w.meshLoaded (insertRunsT w runs c) = true := by
  induction runs generalizing c with
  | nil => simpa [insertRunsT] using hc
  | cons r rest ih =>
    rcases r with ⟨⟨math, mesh⟩, d⟩
    rcases hm : w.meshLoaded mesh with _ | _
    · simp only [insertRunsT, List.foldl_cons, hm, Bool.false_eq_true,
        if_false] at ih ⊢
      exact ih c hc
    · rcases hr : w.matResolve math with _ | ⟨m, chf⟩
      · simp only [insertRunsT, List.foldl_cons, hm, if_true, hr] at ih ⊢
        exact ih c hc
      · simp only [insertRunsT, List.foldl_cons, hm, if_true, hr] at ih ⊢
        exact ih _ (TwoLevelBatch.insert_allMeshes _ _ _ _ _ hc hm)

theorem callsSpec_append {α : Type} (meshOk : Nat → Bool) (off : Nat)
    (l1 l2 : List (Nat × List α)) :
    callsSpec meshOk off (l1 ++ l2)
      = callsSpec meshOk off l1
        ++ callsSpec meshOk (off + (l1.map (fun b => b.2.length)).sum) l2 := by
  induction l1 generalizing off with
  | nil => simp [callsSpec]
  | cons b t ih =>
    simp [callsSpec, ih, Nat.add_assoc, List.append_assoc]

theorem drawBucket_spec {α : Type} (meshOk : Nat → Bool) (calls : List DrawCall)
    (n : Nat) (bs : List (Nat × List α)) :
    drawBucket meshOk (calls, n) bs
      = (calls ++ callsSpec meshOk n bs,
         n + (bs.map (fun b => b.2.length)).sum) := by
  induction bs generalizing calls n with
  | nil => simp [drawBucket, callsSpec]
  | cons b t ih =>
    show drawBucket meshOk _ t = _
    rw [ih]
    simp [callsSpec, List.append_assoc, Nat.add_assoc]

theorem draw_foldl_spec {α : Type} (loaded meshOk : Nat → Bool)
    (c : TwoLevelBatch α) (calls : List DrawCall) (n : Nat) :
    c.foldl (fun a b => if loaded b.1 then drawBucket meshOk a b.2 else a)
        (calls, n)
      = (calls ++ callsSpec meshOk n (loadedBatches loaded c),
         n + ((loadedBatches loaded c).map (fun b => b.2.length)).sum) := by
  induction c generalizing calls n with
  | nil => simp [loadedBatches, callsSpec]
  | cons b t ih =>
    rcases hl : loaded b.1 with _ | _
    · have hlb : loadedBatches loaded (b :: t) = loadedBatches loaded t := by
        simp [loadedBatches, List.filter_cons, hl]
      simp only [List.foldl_cons, hl, Bool.false_eq_true, if_false, hlb]
      exact ih calls n
    · have hlb : loadedBatches loaded (b :: t)
          = b.2 ++ loadedBatches loaded t := by
        simp [loadedBatches, List.filter_cons, hl]
      simp only [List.foldl_cons, hl, if_true, hlb]
      rw [drawBucket_spec, ih, callsSpec_append]
      simp [List.append_assoc, Nat.add_assoc]

theorem bucketData_length {α : Type} (bs : List (Nat × List α)) :
    (TwoLevelBatch.bucketData bs).length
      = (bs.map (fun b => b.2.length)).sum := by
  simp only [TwoLevelBatch.bucketData, List.length_flatten, List.map_map]
  rfl

theorem count_eq_sizes {α : Type} (c : TwoLevelBatch α) :
    TwoLevelBatch.count c = ((allBatches c).map (fun b => b.2.length)).sum := by
  induction c with
  | nil => rfl
  | cons b t ih =>
    have h2 : (allBatches (b :: t)).map (fun x => x.2.length)
        = b.2.map (fun x => x.2.length)
          ++ (allBatches t).map (fun x => x.2.length) := by
      simp [allBatches]
    show (TwoLevelBatch.bucketData b.2 ++ TwoLevelBatch.data t).length = _
    rw [List.length_append, h2, List.sum_append, bucketData_length, ← ih]
    rfl

theorem callsSpec_counts_sum {α : Type} (meshOk : Nat → Bool) (off : Nat)
    (l : List (Nat × List α)) (h : ∀ b ∈ l, meshOk b.1 = true) :
    ((callsSpec meshOk off l).map DrawCall.count).sum
      = (l.map (fun b => b.2.length)).sum := by
  induction l generalizing off with
  | nil => rfl
  | cons b t ih =>
    have hb : meshOk b.1 = true := h b (List.mem_cons_self b t)
    simp only [callsSpec, hb, if_true, List.map_cons, List.sum_cons,
      List.singleton_append]
    rw [ih _ (fun x hx => h x (List.mem_cons_of_mem b hx))]

theorem loadedBatches_of_all_loaded {α : Type} (loaded : Nat → Bool)
    (c : TwoLevelBatch α) (h : ∀ b ∈ c, loaded b.1 = true) :
    loadedBatches loaded c = allBatches c := by
  unfold loadedBatches allBatches
  rw [List.filter_eq_self.mpr h]

theorem allBatches_nil_of_count_zero {α : Type} (c : TwoLevelBatch α)
    (hne : ∀ b ∈ allBatches c, b.2 ≠ []) (h0 : TwoLevelBatch.count c = 0) :
    allBatches c = [] := by
  rcases hb : allBatches c with _ | ⟨x, t⟩
  · rfl
  · exfalso
    have hx : x ∈ allBatches c := by rw [hb]; exact List.mem_cons_self x t
    have hxne := hne x hx
    have := count_eq_sizes c
    rw [h0, hb] at this
    simp only [List.map_cons, List.sum_cons] at this
    have hlen : x.2.length = 0 := by omega
    exact hxne (List.eq_nil_of_length_eq_zero hlen)

theorem loadedBatches_sub_allBatches {α : Type} (loaded : Nat → Bool)
    (c : TwoLevelBatch α) (h : allBatches c = []) :
    loadedBatches loaded c = [] := by
  rw [List.eq_nil_iff_forall_not_mem] at h ⊢
  intro x hx
  apply h x
  unfold loadedBatches at hx
  unfold allBatches
  rw [List.mem_flatten] at hx ⊢
  obtain ⟨l, hl, hxl⟩ := hx
  rw [List.mem_map] at hl
  obtain ⟨bkt, hbkt, rfl⟩ := hl
  exact ⟨bkt.2, List.mem_map_of_mem _ (List.mem_of_mem_filter hbkt), hxl⟩

theorem scanExtend_some {fuel : Nat} {bs : List InstancedBatchData}
    {mesh : Nat} {ins : List Nat} {bs' : List InstancedBatchData}
    (h : scanExtend fuel bs mesh ins = some bs') :
    ∃ pre oldM post,
      bs = pre ++ ⟨mesh, oldM⟩ :: post
      ∧ pre.length < fuel
      ∧ (∀ b ∈ pre, b.mesh_id ≠ mesh)
      ∧ bs' = pre ++ ⟨mesh, oldM ++ ins⟩ :: post := by
  induction fuel generalizing bs bs' with
  | zero => simp [scanExtend] at h
  | succ f ih =>
    cases bs with
    | nil => simp [scanExtend] at h
    | cons b r =>
      by_cases hb : b.mesh_id = mesh
      · rw [scanExtend, if_pos hb] at h
        obtain ⟨bm, bmod⟩ := b
        simp only at hb
        subst hb
        refine ⟨[], bmod, r, by simp, by simp, by simp, ?_⟩
        simp only [Option.some_inj] at h
        simp [← h]
      · rw [scanExtend, if_neg hb] at h
        rw [Option.map_eq_some'] at h
        obtain ⟨rs', hrs, rfl⟩ := h
        obtain ⟨pre, oldM, post, h1, h2, h3, h4⟩ := ih hrs
        refine ⟨b :: pre, oldM, post, by rw [h1]; rfl, by simpa using h2,
          ?_, by rw [h4]; rfl⟩
        intro x hx
        rcases List.mem_cons.mp hx with rfl | hxp
        · exact hb
        · exact h3 x hxp

theorem scanExtend_none {fuel : Nat} {bs : List InstancedBatchData}
    {mesh : Nat} {ins : List Nat}
    (h : scanExtend fuel bs mesh ins = none) :
    ∀ b ∈ bs.take fuel, b.mesh_id ≠ mesh := by
  induction fuel generalizing bs with
  | zero => simp
  | succ f ih =>
    cases bs with
    | nil => simp
    | cons b r =>
      by_cases hb : b.mesh_id = mesh
      · rw [scanExtend, if_pos hb] at h
        simp at h
      · rw [scanExtend, if_neg hb] at h
        rw [Option.map_eq_none'] at h
        intro x hx
        rw [List.take_succ_cons] at hx
        rcases List.mem_cons.mp hx with rfl | hxp
        · exact hb
        · exact ih h x hxp

theorem next_power_of_two_eq (n : Nat) (h : ¬ n ≤ 1) :
    next_power_of_two n = 2 ^ (Nat.log2 (n - 1) + 1) % 2 ^ 64 := by
  unfold next_power_of_two
  rw [if_neg h]

theorem le_next_power_of_two (n : Nat) (hn : n ≤ 2 ^ 63) :
    n ≤ next_power_of_two n := by
  unfold next_power_of_two
  by_cases h : n ≤ 1
  · rw [if_pos h, Nat.mod_eq_of_lt (by norm_num : (1 : Nat) < 2 ^ 64)]
    exact h
  · rw [if_neg h]
    have h2 := Nat.lt_log2_self (n := n - 1)
    have hlt : n - 1 < 2 ^ 63 := lt_of_lt_of_le (by omega) hn
    have h4 : Nat.log2 (n - 1) < 63 := (Nat.log2_lt (by omega)).mpr hlt
    have h5 : 2 ^ (Nat.log2 (n - 1) + 1) < 2 ^ 64 :=
      Nat.pow_lt_pow_right (by norm_num) (by omega)
    rw [Nat.mod_eq_of_lt h5]
    omega

theorem insertRunsO_allMeshes {α : Type} (w : World)
    (runs : List ((Nat × Nat) × List α)) (c : OrderedTwoLevelBatch α)
    (ch : Bool) (hc : c.allMeshes w.meshLoaded = true) :
    ((insertRunsO w runs c ch).1).allMeshes w.meshLoaded = true := by
  induction runs generalizing c ch with
  | nil => simpa [insertRunsO] using hc
  | cons r rest ih =>
    rcases r with ⟨⟨math, mesh⟩, d⟩
    rcases hm : w.meshLoaded mesh with _ | _
    · simp only [insertRunsO, List.foldl_cons, hm, Bool.false_eq_true,
        if_false] at ih ⊢
      exact ih c ch hc
    · rcases hr : w.matResolve math with _ | ⟨m, chf⟩
      · simp only [insertRunsO, List.foldl_cons, hm, if_true, hr] at ih ⊢
        exact ih c ch hc
      · simp only [insertRunsO, List.foldl_cons, hm, if_true, hr] at ih ⊢
        exact ih _ _ (OrderedTwoLevelBatch.insert_allMeshes_ordered _ _ _ _ _ hc hm)

/-! ## Claim theorems -/

/-- C1: in the transparent pass's prepare, instance records are inserted in
exactly the order given by the Visibility collaborator's ordered
back-to-front sequence (restricted to entities matched by the join and
surviving the mesh-loaded / material-resolved guards), and the ordered
container's flattened `data()` sequence preserves that exact relative order
regardless of material/mesh groupings: it equals the args of the surviving
entities of the ordered stream, in stream order, for both the static and
the skinned container. -/
theorem transparent_prepare_visibility_order (skin : Bool)
    (prevS : OrderedTwoLevelBatch VertexArgs)
    (prevK : OrderedTwoLevelBatch SkinnedVertexArgs) (vis : Visibility)
    (w : World) (helper : Nat → Bool → PrepareResult) (index : Nat) :
    (transparentPrepare skin prevS prevK vis w helper index).staticC.data
      = ((transparentStaticStream w vis).filter
          (fun x => survives w x.1)).map Prod.snd
    ∧ (transparentPrepare skin prevS prevK vis w helper index).skinnedC.data
      = (if skin then
          ((transparentSkinnedStream w vis).filter
            (fun x => survives w x.1)).map Prod.snd
        else []) := by
  constructor
  · have hs := (insertRunsO_spec w
      (group_runs (transparentStaticStream w vis)) prevS.swap_clear false).1
    rw [OrderedTwoLevelBatch.swap_clear_data, List.nil_append,
      runsData_group_runs] at hs
    exact hs
  · cases skin with
    | false => exact OrderedTwoLevelBatch.swap_clear_data prevK
    | true =>
      have hs := (insertRunsO_spec w
        (group_runs (transparentSkinnedStream w vis)) prevK.swap_clear
        (insertRunsO w (group_runs (transparentStaticStream w vis))
          prevS.swap_clear false).2).1
      rw [OrderedTwoLevelBatch.swap_clear_data, List.nil_append,
        runsData_group_runs] at hs
      exact hs

/-- C2 counterexample: with skinning enabled and no Visibility resource, a
world whose only entity is flagged `Transparent` (and has joint transforms,
a loaded mesh and a resolving material) still contributes an instance
record to the skinned batch container, because the skinned gather join
(`base_3d.rs` line 231) does not exclude `Transparent`.  This refutes the
claim that a `Transparent`-flagged entity never appears in either batch
container. -/
theorem transparent_entity_in_skinned_batches :
    transparentJointedWorld.transparent 0 = true
    ∧ transparentJointedWorld.alive = [0]
    ∧ TwoLevelBatch.data
        (opaquePrepare true none [] [] transparentJointedWorld).2
        = [⟨7, none, 0⟩]
    ∧ TwoLevelBatch.data
        (opaquePrepare true none [] [] transparentJointedWorld).1 = [] :=
  ⟨rfl, rfl, by decide, by decide⟩

/-- C2 (amended): in the opaque pass's prepare with no Visibility resource,
the static container's contents are exactly those of the entities not
flagged `Hidden`, `HiddenPropagate` or `Transparent` (see
`opaqueStaticStream`), and the skinned container's contents are exactly
those of the jointed entities not flagged `Hidden` or `HiddenPropagate`
(see `opaqueSkinnedStream` — `Transparent` is not excluded there).  In
particular entities flagged `Hidden` or `HiddenPropagate` never appear in
either container, and `Transparent` entities never appear in the static
container. -/
theorem opaque_prepare_novisibility_filters (skin : Bool)
    (prevS : TwoLevelBatch VertexArgs)
    (prevK : TwoLevelBatch SkinnedVertexArgs) (w : World) :
    List.Perm
      (TwoLevelBatch.data (opaquePrepare skin none prevS prevK w).1)
      (((opaqueStaticStream w none).filter
        (fun x => survives w x.1)).map Prod.snd)
    ∧ List.Perm
      (TwoLevelBatch.data (opaquePrepare skin none prevS prevK w).2)
      (if skin then
        ((opaqueSkinnedStream w none).filter
          (fun x => survives w x.1)).map Prod.snd
      else []) := by
  constructor
  · have hs := insertRunsT_data_perm w
      (group_runs (opaqueStaticStream w none)) prevS.clear_inner
    rw [TwoLevelBatch.clear_inner_data, List.nil_append,
      runsData_group_runs] at hs
    show List.Perm (TwoLevelBatch.data (TwoLevelBatch.prune _)) _
    rw [TwoLevelBatch.prune_data]
    exact hs
  · cases skin with
    | false =>
      show List.Perm (TwoLevelBatch.data (TwoLevelBatch.prune
        (TwoLevelBatch.clear_inner prevK))) []
      rw [TwoLevelBatch.prune_data, TwoLevelBatch.clear_inner_data]
    | true =>
      have hs := insertRunsT_data_perm w
        (group_runs (opaqueSkinnedStream w none)) prevK.clear_inner
      rw [TwoLevelBatch.clear_inner_data, List.nil_append,
        runsData_group_runs] at hs
      show List.Perm (TwoLevelBatch.data (TwoLevelBatch.prune _)) _
      rw [TwoLevelBatch.prune_data]
      exact hs

/-- C3 counterexample: a container whose first material (id 3, one batch of
2 instances) is not yet GPU-loaded and whose second material (id 4, one
batch of 1 instance of mesh 7) is loaded.  The single drawn batch is the
second batch in container iteration order — 2 instances precede it in the
flattened sequence written during prepare — yet its draw range starts at 0
and the final counter is 1, because `draw_inline` (`base_3d.rs` lines
340-359) advances `instances_drawn` only inside the `loaded` branch.  This
refutes "the counter equals the total instance count of all batches
preceding it in the container's iteration order". -/
theorem draw_offset_skips_unloaded_material :
    (draw_inline_static (fun m => m == 4) (fun _ => true)
      twoMaterialContainer).1 = [⟨7, 0, 1⟩]
    ∧ (allBatches twoMaterialContainer).map (fun b => b.2.length) = [2, 1]
    ∧ (draw_inline_static (fun m => m == 4) (fun _ => true)
        twoMaterialContainer).2 = 1
    ∧ TwoLevelBatch.count twoMaterialContainer = 3 := by
  refine ⟨by decide, by decide, by decide, by decide⟩

/-- C3 (amended): during the opaque pass's draw, every drawn batch's
instanced draw call covers the contiguous range given by a running offset
over the batches of the *loaded* materials in container iteration order
(unloaded materials are skipped without advancing the counter); the final
counter equals the total instance count over loaded materials; and when
every material is loaded and every mesh resolves, summing the drawn batch
ranges over the frame equals the total inserted instance count (17 in the
spec's two-material example). -/
theorem draw_inline_static_ranges {α : Type} (loaded meshOk : Nat → Bool)
    (c : TwoLevelBatch α) (hne : ∀ b ∈ allBatches c, b.2 ≠ []) :
    (draw_inline_static loaded meshOk c).1
      = callsSpec meshOk 0 (loadedBatches loaded c)
    ∧ (draw_inline_static loaded meshOk c).2
      = ((loadedBatches loaded c).map (fun b => b.2.length)).sum
    ∧ ((∀ b ∈ c, loaded b.1 = true) →
        (∀ b ∈ allBatches c, meshOk b.1 = true) →
        ((draw_inline_static loaded meshOk c).1.map DrawCall.count).sum
          = TwoLevelBatch.count c) := by
  unfold draw_inline_static
  by_cases h0 : TwoLevelBatch.count c = 0
  · rw [if_pos h0]
    have hab := allBatches_nil_of_count_zero c hne h0
    have hlb := loadedBatches_sub_allBatches loaded c hab
    refine ⟨by rw [hlb]; rfl, by rw [hlb]; rfl, ?_⟩
    intro _ _
    simp [h0]
  · rw [if_neg h0, draw_foldl_spec]
    refine ⟨rfl, by simp, ?_⟩
    intro hl hm
    show ((callsSpec meshOk 0 (loadedBatches loaded c)).map
      DrawCall.count).sum = TwoLevelBatch.count c
    rw [loadedBatches_of_all_loaded loaded c hl,
      callsSpec_counts_sum meshOk 0 (allBatches c) hm, ← count_eq_sizes]

/-- C3 witness: the spec's two-material example (batches of 3, 5, 2, 7
instances), all materials loaded and all meshes resolving: summing the
drawn batch ranges yields 17. -/
theorem draw_inline_static_ranges_witness :
    ((draw_inline_static (fun _ => true) (fun _ => true)
      seventeenContainer).1.map DrawCall.count).sum = 17 := by
  have h := (draw_inline_static_ranges (fun _ => true) (fun _ => true)
    seventeenContainer (by decide)).2.2 (by decide) (by decide)
  rw [h]
  decide

/-- C4: the transparent pass's prepare fetches the Visibility resource with
`ReadExpect`, which fails when the resource is absent: with no Visibility
the fetch yields the fetch-failure error and never a normal result, and
with one present it always yields a normal result. -/
theorem transparent_prepare_requires_visibility (skin : Bool)
    (prevS : OrderedTwoLevelBatch VertexArgs)
    (prevK : OrderedTwoLevelBatch SkinnedVertexArgs) (w : World)
    (helper : Nat → Bool → PrepareResult) (index : Nat) :
    transparentPrepareFetch skin prevS prevK none w helper index
      = .error "Tried to fetch a resource of type Visibility, but the resource does not exist"
    ∧ ∀ v, transparentPrepareFetch skin prevS prevK (some v) w helper index
        = .ok (transparentPrepare skin prevS prevK v w helper index) :=
  ⟨rfl, fun _ => rfl⟩

/-- C5: every mesh key present in any batch container after prepare —
opaque or transparent, static or skinned, with or without a Visibility
resource — is reported loaded by the asset storage at gather time: an
entity whose mesh is not loaded is silently dropped and never appears in
any batch container for that frame. -/
theorem unloaded_mesh_never_batched (w : World) (skin : Bool)
    (vis : Option Visibility) (prevS : TwoLevelBatch VertexArgs)
    (prevK : TwoLevelBatch SkinnedVertexArgs)
    (prevSO : OrderedTwoLevelBatch VertexArgs)
    (prevKO : OrderedTwoLevelBatch SkinnedVertexArgs) (visT : Visibility)
    (helper : Nat → Bool → PrepareResult) (index : Nat) :
    TwoLevelBatch.allMeshes w.meshLoaded
      (opaquePrepare skin vis prevS prevK w).1 = true
    ∧ TwoLevelBatch.allMeshes w.meshLoaded
      (opaquePrepare skin vis prevS prevK w).2 = true
    ∧ OrderedTwoLevelBatch.allMeshes w.meshLoaded
      (transparentPrepare skin prevSO prevKO visT w helper index).staticC
      = true
    ∧ OrderedTwoLevelBatch.allMeshes w.meshLoaded
      (transparentPrepare skin prevSO prevKO visT w helper index).skinnedC
      = true := by
  refine ⟨?_, ?_, ?_, ?_⟩
  · exact TwoLevelBatch.prune_allMeshes _ _
      (insertRunsT_allMeshes w _ _ (TwoLevelBatch.clear_inner_allMeshes _ _))
  · cases skin with
    | false =>
      exact TwoLevelBatch.prune_allMeshes _ _
        (TwoLevelBatch.clear_inner_allMeshes _ _)
    | true =>
      exact TwoLevelBatch.prune_allMeshes _ _
        (insertRunsT_allMeshes w _ _
          (TwoLevelBatch.clear_inner_allMeshes _ _))
  · exact insertRunsO_allMeshes w _ _ _ rfl
  · cases skin with
    | false => exact rfl
    | true => exact insertRunsO_allMeshes w _ _ _ rfl

/-- C6: the transparent pass's prepare computes its `changed` boolean as
true exactly when some successfully inserted run's material reported
changed (in the static stream, or — when skinning is enabled — the skinned
stream), or the static ordered container's `changed()` fired, or the
skinned ordered container's `changed()` fired; and the returned prepare
result is the change-detection helper applied to the frame-slot index and
that boolean. -/
theorem transparent_prepare_changed_flag (skin : Bool)
    (prevS : OrderedTwoLevelBatch VertexArgs)
    (prevK : OrderedTwoLevelBatch SkinnedVertexArgs) (vis : Visibility)
    (w : World) (helper : Nat → Bool → PrepareResult) (index : Nat) :
    (transparentPrepare skin prevS prevK vis w helper index).changed
      = (((transparentStaticStream w vis).any
            (fun x => materialChangedFlag w x.1)
          || (if skin then
              (transparentSkinnedStream w vis).any
                (fun x => materialChangedFlag w x.1)
            else false))
          || (transparentPrepare skin prevS prevK vis w helper
              index).staticC.changed
          || (transparentPrepare skin prevS prevK vis w helper
              index).skinnedC.changed)
    ∧ (transparentPrepare skin prevS prevK vis w helper index).result
        = helper index
            (transparentPrepare skin prevS prevK vis w helper index).changed
    := by
  refine ⟨?_, rfl⟩
  have hs := (insertRunsO_spec w
    (group_runs (transparentStaticStream w vis)) prevS.swap_clear false).2
  rw [group_runs_any, Bool.false_or] at hs
  cases skin with
  | false => simp [transparentPrepare, hs]
  | true =>
    have hk := (insertRunsO_spec w
      (group_runs (transparentSkinnedStream w vis)) prevK.swap_clear
      (insertRunsO w (group_runs (transparentStaticStream w vis))
        prevS.swap_clear false).2).2
    rw [group_runs_any] at hk
    rw [hs] at hk
    simp [transparentPrepare, hs, hk]

/-- C7: if graphics-pipeline creation fails inside `build_pipelines`, the
already-created pipeline layout is destroyed before the error is
propagated (the failure trace is the success trace followed by exactly the
layout destruction, and the result is the error); the transient shader
modules are destroyed on both the success and the failure path, before the
build result is inspected; and on success the layout is not destroyed. -/
theorem build_pipelines_cleanup (sk : Bool) (ps : List Nat) :
    (build_pipelines sk (.ok ()) (.error ())).1
      = (build_pipelines sk (.ok ()) (.ok ps)).1 ++ [PipeEvent.destroyLayout]
    ∧ (build_pipelines sk (.ok ()) (.error ())).2 = .error ()
    ∧ (build_pipelines sk (.ok ()) (.ok ps)).2 = .ok (ps, ())
    ∧ PipeEvent.destroyLayout ∉ (build_pipelines sk (.ok ()) (.ok ps)).1
    ∧ PipeEvent.destroyShaderModule 0 ∈ (build_pipelines sk (.ok ()) (.ok ps)).1
    ∧ PipeEvent.destroyShaderModule 1 ∈ (build_pipelines sk (.ok ()) (.ok ps)).1
    ∧ PipeEvent.destroyShaderModule 0 ∈ (build_pipelines sk (.ok ()) (.error ())).1
    ∧ PipeEvent.destroyShaderModule 1 ∈ (build_pipelines sk (.ok ()) (.error ())).1
    ∧ PipeEvent.destroyShaderModule 2 ∈ (build_pipelines true (.ok ()) (.ok ps)).1
    ∧ PipeEvent.destroyShaderModule 2 ∈ (build_pipelines true (.ok ()) (.error ())).1
    := by
  cases sk <;>
    refine ⟨rfl, rfl, rfl, by simp [build_pipelines],
      by simp [build_pipelines], by simp [build_pipelines],
      by simp [build_pipelines], by simp [build_pipelines],
      by simp [build_pipelines], by simp [build_pipelines]⟩

/-- C7 witness: the cleanup properties evaluated at the skinned
configuration with a one-pipeline build result. -/
theorem build_pipelines_cleanup_witness :
    (build_pipelines true (.ok ()) (.error ())).2 = .error ()
    ∧ PipeEvent.destroyLayout
        ∉ (build_pipelines true (.ok ()) (.ok [5])).1 :=
  ⟨(build_pipelines_cleanup true [5]).2.1,
   (build_pipelines_cleanup true [5]).2.2.2.1⟩

/-- C8: `insert_batch` leaves every other material's bucket unchanged, and
for the target material all supplied instances end up appended to exactly
one batch: either (merge case) the first batch with the same mesh id among
the first 8 batches of the bucket, with every earlier batch having a
different mesh id, or (append case) a fresh batch at the end of the list
when no batch within the first 8 matches; for an absent material a new
single-batch bucket is created (the append case with an empty prior list).
The bucket's total instance count always grows by exactly the number of
supplied instances. -/
theorem insert_batch_spec (md : Nat → Option MaterialData)
    (mat mesh : Nat) (ins : List Nat) :
    (∀ m, m ≠ mat → insert_batch md mat mesh ins m = md m)
    ∧ ∃ bucket, insert_batch md mat mesh ins mat = some bucket
      ∧ ((∃ pre oldM post,
            bucketBatches (md mat) = pre ++ ⟨mesh, oldM⟩ :: post
            ∧ pre.length < 8
            ∧ (∀ b ∈ pre, b.mesh_id ≠ mesh)
            ∧ bucket.batches = pre ++ ⟨mesh, oldM ++ ins⟩ :: post)
        ∨ ((∀ b ∈ (bucketBatches (md mat)).take 8, b.mesh_id ≠ mesh)
            ∧ bucket.batches = bucketBatches (md mat) ++ [⟨mesh, ins⟩]))
      ∧ (bucket.batches.map (fun b => b.models.length)).sum
          = ((bucketBatches (md mat)).map (fun b => b.models.length)).sum
            + ins.length := by
  constructor
  · intro m hm
    unfold insert_batch
    rw [if_neg hm]
  · rcases hmd : md mat with _ | matd
    · refine ⟨⟨[⟨mesh, ins⟩]⟩, ?_, Or.inr ⟨by simp [bucketBatches],
        by simp [bucketBatches]⟩, by simp [bucketBatches]⟩
      simp [insert_batch, hmd]
    · rcases hscan : scanExtend 8 matd.batches mesh ins with _ | bs'
      · refine ⟨⟨matd.batches ++ [⟨mesh, ins⟩]⟩, ?_,
          Or.inr ⟨?_, by simp [bucketBatches]⟩, ?_⟩
        · simp [insert_batch, hmd, hscan]
        · exact scanExtend_none hscan
        · simp [bucketBatches]
      · obtain ⟨pre, oldM, post, h1, h2, h3, h4⟩ := scanExtend_some hscan
        refine ⟨⟨bs'⟩, ?_, Or.inl ⟨pre, oldM, post, h1, h2, h3, h4⟩, ?_⟩
        · simp [insert_batch, hmd, hscan]
        · show (bs'.map (fun b => b.models.length)).sum
            = (matd.batches.map (fun b => b.models.length)).sum + ins.length
          rw [h1, h4]
          simp only [List.map_append, List.sum_append, List.map_cons,
            List.sum_cons, List.length_append]
          omega

/-- C8 witness: inserting instance 9 for mesh 5 of material 1 into
`pbmMapExample` leaves material 2 untouched and merges into the existing
mesh-5 batch. -/
theorem insert_batch_spec_witness :
    insert_batch pbmMapExample 1 5 [9] 2 = none
    ∧ insert_batch pbmMapExample 1 5 [9] 1
        = some ⟨[⟨4, [0]⟩, ⟨5, [1, 2, 9]⟩]⟩ :=
  ⟨((insert_batch_spec pbmMapExample 1 5 [9]).1 2 (by decide)).trans rfl,
   by decide⟩

/-- C9 counterexample: `u64::next_power_of_two` wraps to 0 in release mode
for arguments above 2^63 (`pbm.rs` line 895; in debug mode it panics
there), so asking `ensure_buffer` for a buffer of at least `2^63 + 1`
bytes while holding one of size 4 replaces it with a buffer of size 0:
the new size is smaller than `min_size` and smaller than the old size.
This refutes "the new size is at least `min_size`" and "the buffer's size
is non-decreasing" as stated for every call. -/
theorem ensure_buffer_overflow_shrinks :
    next_power_of_two (2 ^ 63 + 1) = 0
    ∧ ensure_buffer (some 4) (2 ^ 63 + 1) = .ok (true, some 0)
    ∧ (0 : Nat) < 2 ^ 63 + 1 ∧ (0 : Nat) < 4 := by
  have hl : Nat.log2 (2 ^ 63 + 1 - 1) = 63 := by
    rw [Nat.add_sub_cancel, Nat.log2_eq_log_two]
    exact Nat.log_pow (b := 2) (by norm_num) 63
  have h0 : next_power_of_two (2 ^ 63 + 1) = 0 := by
    rw [next_power_of_two_eq (2 ^ 63 + 1) (by norm_num), hl]
    norm_num
  refine ⟨h0, ?_, by norm_num, by norm_num⟩
  rw [ensure_buffer,
    if_pos (show (some 4 : Option Nat).getD 0 < 2 ^ 63 + 1 by
      norm_num [Option.getD_some]), h0]

/-- C9 (amended): `ensure_buffer` keeps the buffer and returns `Ok false`
when the current size is at least `min_size`, and otherwise replaces it
with one of size `next_power_of_two min_size` and returns `Ok true`; and
whenever `min_size` is within the non-overflow domain of
`u64::next_power_of_two` (`min_size ≤ 2^63`), the new size is at least
`min_size`, the flag is true exactly when the buffer was replaced, and the
buffer's size never decreases.  (Above 2^63 the source wraps the new size
to 0 in release mode, or panics in debug mode.) -/
theorem ensure_buffer_spec (buffer : Option Nat) (min_size : Nat) :
    ∃ flag buf', ensure_buffer buffer min_size = .ok (flag, buf')
      ∧ (min_size ≤ buffer.getD 0 → flag = false ∧ buf' = buffer)
      ∧ (buffer.getD 0 < min_size →
          flag = true ∧ buf' = some (next_power_of_two min_size))
      ∧ (min_size ≤ 2 ^ 63 →
          (buffer.getD 0 < min_size → min_size ≤ buf'.getD 0)
          ∧ (flag = true ↔ buf' ≠ buffer)
          ∧ buffer.getD 0 ≤ buf'.getD 0) := by
  by_cases h : buffer.getD 0 < min_size
  · refine ⟨true, some (next_power_of_two min_size),
      by rw [ensure_buffer, if_pos h], fun hge => absurd h (by omega),
      fun _ => ⟨rfl, rfl⟩,
      fun hbound => ⟨fun _ => ?_, ⟨fun _ => ?_, fun _ => rfl⟩, ?_⟩⟩
    · simpa using le_next_power_of_two min_size hbound
    · intro heq
      have hle := le_next_power_of_two min_size hbound
      cases buffer with
      | none => exact Option.noConfusion heq
      | some s =>
        simp only [Option.getD_some] at h
        have : next_power_of_two min_size = s := by
          injection heq
        omega
    · have hle := le_next_power_of_two min_size hbound
      simp only [Option.getD_some]
      omega
  · refine ⟨false, buffer, by rw [ensure_buffer, if_neg h],
      fun _ => ⟨rfl, rfl⟩, fun hlt => absurd hlt h,
      fun _ => ⟨fun hlt => absurd hlt h,
        ⟨fun hf => Bool.noConfusion hf, fun hne => absurd rfl hne⟩,
        Nat.le_refl _⟩⟩

/-- C9 witness: a buffer of size 4 asked to hold at least 7 bytes (within
the non-overflow domain) is reallocated to size
`next_power_of_two 7 = 8 ≥ 7`. -/
theorem ensure_buffer_spec_witness :
    ∃ flag buf', ensure_buffer (some 4) 7 = .ok (flag, buf')
      ∧ flag = true ∧ buf' = some (next_power_of_two 7)
      ∧ 7 ≤ buf'.getD 0 ∧ next_power_of_two 7 = 8 := by
  obtain ⟨flag, buf', h1, _, h3, h4⟩ := ensure_buffer_spec (some 4) 7
  obtain ⟨hf, hb⟩ := h3 (by decide)
  have hge := (h4 (by norm_num)).1 (by decide)
  exact ⟨flag, buf', h1, hf, hb, hge,
    by norm_num [next_power_of_two, Nat.log2]⟩

/-- C10: regardless of how many light entities exist, at most 128 point
lights, 16 directional lights and 128 spot lights are collected per frame,
and the counts written into the `Environment` uniform equal the lengths of
the truncated lists. -/
theorem light_limits (w : LightWorld) :
    (point_lights w).length ≤ MAX_POINT_LIGHTS
    ∧ (dir_lights w).length ≤ MAX_DIR_LIGHTS
    ∧ (spot_lights w).length ≤ MAX_SPOT_LIGHTS
    ∧ (environment_pod w).point_light_count = (point_lights w).length
    ∧ (environment_pod w).directional_light_count = (dir_lights w).length
    ∧ (environment_pod w).spot_light_count = (spot_lights w).length := by
  refine ⟨?_, ?_, ?_, rfl, rfl, rfl⟩
  · exact List.length_take_le _ _
  · exact List.length_take_le _ _
  · exact List.length_take_le _ _

end Amethyst
